import Mathlib

/-!
Verification of the geometry-handling core of `src/app_streamlit.py`.

The script reprojects GeoJSON coordinate arrays from EPSG:27700 (British
National Grid) to EPSG:4326 (WGS84) and computes a bounding box for the map.
We embed the Python values and functions shallowly:

* A Python nested coordinate value (a number or a list of such values) is
  `PyVal`.
* Python exceptions (IndexError on `coords[0]`, KeyError on
  `geom["coordinates"]`, TypeError from subscripting a number or from passing
  a non-numeric argument to the projection transform, HTTPError from
  `raise_for_status`) are modelled by `Option`: `none` means the call raised.
* The external pyproj transformer `bng_to_wgs84.transform` is an opaque
  numeric function; every definition takes it as a parameter
  `tf : List ℚ → List ℚ` mapping the unpacked argument tuple to the returned
  tuple (the real transformer raises on non-numeric arguments, which we model
  by applying `tf` only when every element is numeric and raising otherwise).
-/

namespace LandApp

/-- A Python value inside a GeoJSON `coordinates` field: a number
(`float`/`int`) or a (possibly nested) list. -/
inductive PyVal : Type where
  | num : ℚ → PyVal
  | arr : List PyVal → PyVal

/-- The test `isinstance(v, (float, int))` returning the numeric payload. -/
def asNum : PyVal → Option ℚ
  | .num x => some x
  | .arr _ => none

/-- Unpacking `transform(*coords)`: succeeds only when every argument is a
number (the pyproj transformer raises on a list argument). -/
def allNums : List PyVal → Option (List ℚ)
  | [] => some []
  | v :: vs =>
    match asNum v, allNums vs with
    | some x, some xs => some (x :: xs)
    | _, _ => none

mutual

/-- Embeds `src/app_streamlit.py` lines 16–20:

```
def reproject_coords(coords):
    # Handles both single and nested coordinate lists
    if isinstance(coords[0], (float, int)):
        return list(bng_to_wgs84.transform(*coords))
    return [reproject_coords(c) for c in coords]
```

`coords[0]` raises IndexError on an empty list and TypeError when `coords`
is itself a number (both `none`). -/
def reproject_coords (tf : List ℚ → List ℚ) : PyVal → Option PyVal
  | .num _ => none
  | .arr [] => none
  | .arr (c :: cs) =>
    match c with
    | .num _ =>
      match allNums (c :: cs) with
      | some nums => some (.arr ((tf nums).map .num))
      | none => none
    | .arr _ =>
      match reproject_list tf (c :: cs) with
      | some l => some (.arr l)
      | none => none

/-- The list comprehension `[reproject_coords(c) for c in coords]`; an
exception in any element propagates. -/
def reproject_list (tf : List ℚ → List ℚ) : List PyVal → Option (List PyVal)
  | [] => some []
  | v :: vs =>
    match reproject_coords tf v, reproject_list tf vs with
    | some v', some vs' => some (v' :: vs')
    | _, _ => none

end

mutual

/-- The inner closure of `get_all_coords` (`src/app_streamlit.py` lines
31–36): walks a coordinate value and returns, in order, the leaf lists it
appends to `coords` (the raw Python list is appended whenever its first
element is numeric); `none` when `geom_coords[0]` raises. -/
def extract_coords : PyVal → Option (List (List PyVal))
  | .num _ => none
  | .arr [] => none
  | .arr (c :: cs) =>
    match c with
    | .num _ => some [c :: cs]
    | .arr _ => extract_list (c :: cs)

/-- The `for c in geom_coords: extract_coords(c)` loop; an exception in any
element propagates. -/
def extract_list : List PyVal → Option (List (List PyVal))
  | [] => some []
  | v :: vs =>
    match extract_coords v, extract_list vs with
    | some l, some ls => some (l ++ ls)
    | _, _ => none

end

/-- The list of recognized geometry types tested by `reproject_feature`
(`src/app_streamlit.py` line 24). -/
def GEOJSON_TYPES : List String :=
  ["Point", "LineString", "Polygon", "MultiPoint", "MultiLineString", "MultiPolygon"]

/-- A GeoJSON geometry object as the script reads it: an optional `type` key,
an optional `coordinates` key (`none` models an absent key), and any other
keys, which the script never touches. -/
structure Geometry : Type where
  type : Option String
  coordinates : Option PyVal
  gother : List (String × String)

/-- The empty dict `{}` used as the default for a missing `geometry` key. -/
def emptyGeom : Geometry := { type := none, coordinates := none, gother := [] }

/-- A feature dict: an optional `geometry` key, the `properties` mapping, and
the remaining keys (`id`, `createdAt`, …). -/
structure Feature : Type where
  geometry : Option Geometry
  properties : List (String × String)
  fother : List (String × String)

/-- Embeds `src/app_streamlit.py` lines 22–27:

```
def reproject_feature(feature):
    geom = feature.get("geometry", {})
    if geom.get("type") in ["Point", "LineString", "Polygon", "MultiPoint",
                            "MultiLineString", "MultiPolygon"]:
        geom["coordinates"] = reproject_coords(geom["coordinates"])
    feature["geometry"] = geom
    return feature
```

`geom["coordinates"]` raises KeyError when the key is absent (`none`).  The
source binds `geom = feature.get("geometry", {})` once; nothing else touches
it, so re-reading `feature.geometry.getD emptyGeom` is identical. -/
def reproject_feature (tf : List ℚ → List ℚ) (feature : Feature) : Option Feature :=
  match (feature.geometry.getD emptyGeom).type with
  | some t =>
    if t ∈ GEOJSON_TYPES then
      match (feature.geometry.getD emptyGeom).coordinates with
      | none => none
      | some c =>
        match reproject_coords tf c with
        | none => none
        | some c' =>
          some { feature with geometry := some { feature.geometry.getD emptyGeom with coordinates := some c' } }
    else some { feature with geometry := some (feature.geometry.getD emptyGeom) }
  | none => some { feature with geometry := some (feature.geometry.getD emptyGeom) }

/-- Embeds `src/app_streamlit.py` lines 29–41 (outer function): collects the leaf
lists of every feature that has a `coordinates` key, in feature order; an
exception raised while walking any geometry propagates. -/
def get_all_coords : List Feature → Option (List (List PyVal))
  | [] => some []
  | f :: fs =>
    let geom := f.geometry.getD emptyGeom
    match geom.coordinates with
    | none => get_all_coords fs
    | some c =>
      match extract_coords c, get_all_coords fs with
      | some l, some ls => some (l ++ ls)
      | _, _ => none

/-- Embeds `src/app_streamlit.py` lines 205–208, for leaves that are coordinate
pairs `(first, second)`:

```
if all_coords:
    lats, lons = zip(*all_coords)
    m.fit_bounds([[min(lons), min(lats)], [max(lons), max(lats)]])
```

`none` means `fit_bounds` is not invoked.  Note that in the source the variable `lats`
holds the FIRST components and `lons` the SECOND components (the names are
swapped relative to the (lon, lat) order of reprojected leaves). -/
def fit_bounds_box (all_coords : List (ℚ × ℚ)) : Option ((ℚ × ℚ) × (ℚ × ℚ)) :=
  match all_coords with
  | [] => none
  | p :: ps =>
    let latsH := p.1
    let latsT := (ps.map Prod.fst)
    let lonsH := p.2
    let lonsT := (ps.map Prod.snd)
    some ((lonsT.foldl min lonsH, latsT.foldl min latsH),
          (lonsT.foldl max lonsH, latsT.foldl max latsH))

/-- The constant `API_BASE` (`src/app_streamlit.py` line 11). -/
def API_BASE : String := "https://integration-api.thelandapp.com"

/-- The URL built by `fetch_projects` (`src/app_streamlit.py` lines 125–127). -/
def projects_url (api_key template_type : String) (published_only : Bool) : String :=
  API_BASE ++ "/projects?apiKey=" ++ api_key ++ "&page=0&size=1000&type=" ++ template_type
    ++ "&from=2025-01-01T06:00:00.000Z"
    ++ (if published_only then "&filter=published" else "")

/-- The URL requested by `fetch_features` (`src/app_streamlit.py` lines 134
and 176). -/
def features_url (project_id api_key : String) : String :=
  API_BASE ++ "/projects/" ++ project_id ++ "/features?apiKey=" ++ api_key

/-- A parsed JSON response body: the value of its `data` key, if present. -/
structure JsonBody (α : Type) : Type where
  data : Option (List α)

/-- An HTTP response: status code, and the parsed JSON body (`none` when
`resp.json()` raises because the body is not valid JSON). -/
structure HttpResponse (α : Type) : Type where
  status : Nat
  body : Option (JsonBody α)

/-- Modelled from the `requests` library: `Response.raise_for_status` raises
`HTTPError` exactly when `400 ≤ status_code < 600` (client and server
errors); it does not raise for any other status. -/
def raises_for_status (status : Nat) : Prop :=
  400 ≤ status ∧ status < 600

instance (status : Nat) : Decidable (raises_for_status status) := by
  unfold raises_for_status; infer_instance

/-- Embeds `src/app_streamlit.py` lines 124–130, given the response the remote
service returned for the built URL:

```
def fetch_projects(api_key, template_type, published_only=False):
    url = ...
    resp = requests.get(url)
    resp.raise_for_status()
    return resp.json().get("data", []), url
```
-/
def fetch_projects {α : Type} (resp : HttpResponse α)
    (api_key template_type : String) (published_only : Bool) :
    Option (List α × String) :=
  if raises_for_status resp.status then none
  else
    match resp.body with
    | none => none
    | some j => some (j.data.getD [], projects_url api_key template_type published_only)

/-- Embeds `src/app_streamlit.py` lines 133–137:

```
def fetch_features(project_id, api_key):
    url = f"{API_BASE}/projects/{project_id}/features?apiKey={api_key}"
    resp = requests.get(url)
    resp.raise_for_status()
    return resp.json().get("data", [])
```
-/
def fetch_features {α : Type} (resp : HttpResponse α)
    (project_id api_key : String) : Option (List α) :=
  if raises_for_status resp.status then none
  else
    match resp.body with
    | none => none
    | some j => some (j.data.getD [])

/-- Well-formed GeoJSON `coordinates` values of a given nesting depth: depth 1
is a coordinate pair `[x, y]`; depth `d + 1` is a non-empty list of depth-`d`
values.  (Point = 1, LineString/MultiPoint = 2, Polygon/MultiLineString = 3,
MultiPolygon = 4.) -/
inductive WF : Nat → PyVal → Prop where
  | pair (x y : ℚ) : WF 1 (.arr [.num x, .num y])
  | node {d : Nat} {l : List PyVal} (hne : l ≠ []) (h : ∀ v ∈ l, WF d v) :
      WF (d + 1) (.arr l)

/-- Modelled from the spec (§4.1): the nesting depth of the `coordinates`
array for each of the six recognized GeoJSON geometry types. -/
def geojson_depth : String → Nat
  | "Point" => 1
  | "LineString" => 2
  | "MultiPoint" => 2
  | "Polygon" => 3
  | "MultiLineString" => 3
  | "MultiPolygon" => 4
  | _ => 0

/-- The contract the specification states for the geometry walker (§4.1): a leaf
coordinate pair is replaced by the transform of that pair, applied exactly
once to the whole pair; an internal node is replaced element-wise, preserving
the shape (same length, related element by element). -/
inductive Reproj (tf : List ℚ → List ℚ) : PyVal → PyVal → Prop where
  | pair (x y : ℚ) :
      Reproj tf (.arr [.num x, .num y]) (.arr ((tf [x, y]).map PyVal.num))
  | node {l l' : List PyVal} (hne : l ≠ []) (hlen : l.length = l'.length)
      (h : ∀ p ∈ l.zip l', Reproj tf p.1 p.2) :
      Reproj tf (.arr l) (.arr l')

mutual

/-- An empty array occurs in the value at a position the recursive walkers
recurse into: the value is `[]` itself, or it is a list whose first element
is a list and some element reaches an empty array. -/
def reachesEmpty : PyVal → Bool
  | .num _ => false
  | .arr [] => true
  | .arr (c :: cs) =>
    match c with
    | .num _ => false
    | .arr _ => reachesEmptyList (c :: cs)

/-- Some element of the list reaches an empty array. -/
def reachesEmptyList : List PyVal → Bool
  | [] => false
  | v :: vs => reachesEmpty v || reachesEmptyList vs

end

/-- A concrete stand-in for the opaque numeric transform, used to evaluate
the embedded functions on concrete inputs. -/
def tfShift : List ℚ → List ℚ := fun l => l.map (fun x => x + 1)

/-- A concrete redirect-style HTTP response (status 302) whose body carries a
`data` field. -/
def resp302 : HttpResponse String := ⟨302, some ⟨some ["f1"]⟩⟩

/-- A concrete successful HTTP response whose JSON body has no `data` key. -/
def resp200 : HttpResponse String := ⟨200, some ⟨none⟩⟩

/-- A feature with a recognized geometry type but no `coordinates` key. -/
def fPointNoCoords : Feature :=
  { geometry := some { type := some "Point", coordinates := none, gother := [] },
    properties := [], fother := [] }

/-- A concrete well-formed Point feature. -/
def fPointFeature : Feature :=
  { geometry :=
      some { type := some "Point", coordinates := some (.arr [.num 1, .num 2]),
             gother := [("src", "bng")] },
    properties := [("name", "field")], fother := [("id", "7")] }

/-- The value of `fPointFeature` after reprojection with `tfShift`. -/
def fPointFeatureR : Feature :=
  { geometry :=
      some { type := some "Point", coordinates := some (.arr [.num 2, .num 3]),
             gother := [("src", "bng")] },
    properties := [("name", "field")], fother := [("id", "7")] }

/-- A concrete feature without a `geometry` key. -/
def fNoGeom : Feature :=
  { geometry := none, properties := [("name", "x")], fother := [] }

/-- Induction over `PyVal` with the inductive hypothesis available for every
element of a nested list. -/
def PyVal.ind_mem {P : PyVal → Prop} (hnum : ∀ x, P (.num x))
    (harr : ∀ l, (∀ v ∈ l, P v) → P (.arr l)) : ∀ v, P v
  | .num x => hnum x
  | .arr l => harr l (fun v _hv => PyVal.ind_mem hnum harr v)
termination_by v => sizeOf v
decreasing_by
  have h1 := List.sizeOf_lt_of_mem _hv
  have h2 : sizeOf (PyVal.arr l) = 1 + sizeOf l := by simp
  omega

/-! ### Shared lemmas about the walkers -/

theorem wf_arr {d : Nat} {v : PyVal} (h : WF d v) :
    ∃ l, v = PyVal.arr l ∧ l ≠ [] := by
  cases h with
  | pair x y => exact ⟨_, rfl, by simp⟩
  | node hne _ => exact ⟨_, rfl, hne⟩

theorem reproject_list_all {tf : List ℚ → List ℚ} :
    ∀ l : List PyVal,
      (∀ v ∈ l, ∃ v', reproject_coords tf v = some v' ∧ Reproj tf v v') →
      ∃ l', reproject_list tf l = some l' ∧ l'.length = l.length ∧
        ∀ p ∈ l.zip l', Reproj tf p.1 p.2 := by
  intro l
  induction l with
  | nil => intro _; exact ⟨[], by simp [reproject_list], by simp, by simp⟩
  | cons v vs ih =>
    intro h
    obtain ⟨v', hv, hrv⟩ := h v (List.mem_cons_self v vs)
    obtain ⟨l', hl, hlen, hall⟩ := ih (fun w hw => h w (List.mem_cons_of_mem v hw))
    refine ⟨v' :: l', by simp [reproject_list, hv, hl], by simp [hlen], ?_⟩
    intro p hp
    rcases List.mem_cons.mp hp with h1 | h1
    · subst h1; exact hrv
    · exact hall p h1

theorem reproject_wf {tf : List ℚ → List ℚ} {d : Nat} {v : PyVal} (h : WF d v) :
    ∃ v', reproject_coords tf v = some v' ∧ Reproj tf v v' := by
  induction h with
  | pair x y =>
    exact ⟨_, by simp [reproject_coords, allNums, asNum], Reproj.pair x y⟩
  | @node d l hne h ih =>
    cases l with
    | nil => exact absurd rfl hne
    | cons c cs =>
      obtain ⟨a, ha, _⟩ := wf_arr (h c (List.mem_cons_self c cs))
      obtain ⟨l', hl, hlen, hall⟩ := reproject_list_all (c :: cs) ih
      subst ha
      exact ⟨.arr l', by simp [reproject_coords, hl],
        Reproj.node hne hlen.symm hall⟩

theorem reproject_extract_list {tf : List ℚ → List ℚ} :
    ∀ l : List PyVal,
      (∀ v ∈ l, ∃ v' L L', reproject_coords tf v = some v' ∧
        (∃ m, v' = PyVal.arr m) ∧ extract_coords v = some L ∧
        extract_coords v' = some L' ∧ L'.length = L.length) →
      ∃ l' M M', reproject_list tf l = some l' ∧ l'.length = l.length ∧
        (∀ w ∈ l', ∃ m, w = PyVal.arr m) ∧ extract_list l = some M ∧
        extract_list l' = some M' ∧ M'.length = M.length := by
  intro l
  induction l with
  | nil =>
    intro _
    exact ⟨[], [], [], by simp [reproject_list], by simp, by simp,
      by simp [extract_list], by simp [extract_list], by simp⟩
  | cons v vs ih =>
    intro h
    obtain ⟨v', L, L', hv, hsh, he, he', hlen⟩ := h v (List.mem_cons_self v vs)
    obtain ⟨l', M, M', hl, hllen, hlsh, hM, hM', hMlen⟩ :=
      ih (fun w hw => h w (List.mem_cons_of_mem v hw))
    refine ⟨v' :: l', L ++ M, L' ++ M', by simp [reproject_list, hv, hl],
      by simp [hllen], ?_, by simp [extract_list, he, hM],
      by simp [extract_list, he', hM'], by simp [hlen, hMlen]⟩
    intro w hw
    rcases List.mem_cons.mp hw with h1 | h1
    · subst h1; exact hsh
    · exact hlsh w h1

theorem reproject_count {tf : List ℚ → List ℚ}
    (htf : ∀ x y : ℚ, tf [x, y] ≠ []) {d : Nat} {v : PyVal} (h : WF d v) :
    ∃ v' L L', reproject_coords tf v = some v' ∧
      (∃ m, v' = PyVal.arr m) ∧ extract_coords v = some L ∧
      extract_coords v' = some L' ∧ L'.length = L.length := by
  induction h with
  | pair x y =>
    cases htl : tf [x, y] with
    | nil => exact absurd htl (htf x y)
    | cons t ts =>
      exact ⟨.arr ((tf [x, y]).map PyVal.num), [[PyVal.num x, PyVal.num y]],
        [PyVal.num t :: ts.map PyVal.num],
        by simp [reproject_coords, allNums, asNum], ⟨_, rfl⟩,
        by simp [extract_coords], by rw [htl]; simp [extract_coords], by simp⟩
  | @node d l hne h ih =>
    cases l with
    | nil => exact absurd rfl hne
    | cons c cs =>
      obtain ⟨a, ha, _⟩ := wf_arr (h c (List.mem_cons_self c cs))
      obtain ⟨l', M, M', hl, hllen, hlsh, hM, hM', hMlen⟩ :=
        reproject_extract_list (c :: cs) ih
      subst ha
      cases l' with
      | nil => simp at hllen
      | cons w ws =>
        obtain ⟨m, hm⟩ := hlsh w (List.mem_cons_self w ws)
        subst hm
        exact ⟨.arr (PyVal.arr m :: ws), M, M',
          by simp [reproject_coords, hl], ⟨_, rfl⟩,
          by simp [extract_coords, hM], by simp [extract_coords, hM'], hMlen⟩

theorem reachesEmptyList_exists :
    ∀ l : List PyVal, reachesEmptyList l = true → ∃ v ∈ l, reachesEmpty v = true := by
  intro l
  induction l with
  | nil => intro h; simp [reachesEmptyList] at h
  | cons v vs ih =>
    intro h
    rw [reachesEmptyList, Bool.or_eq_true] at h
    rcases h with h | h
    · exact ⟨v, List.mem_cons_self v vs, h⟩
    · obtain ⟨w, hw, hrw⟩ := ih h
      exact ⟨w, List.mem_cons_of_mem v hw, hrw⟩

theorem reproject_list_none {tf : List ℚ → List ℚ} :
    ∀ (l : List PyVal) (v : PyVal), v ∈ l → reproject_coords tf v = none →
      reproject_list tf l = none := by
  intro l
  induction l with
  | nil => intro v hv; simp at hv
  | cons w ws ih =>
    intro v hv hnone
    rcases List.mem_cons.mp hv with h1 | h1
    · subst h1; simp [reproject_list, hnone]
    · cases hw : reproject_coords tf w <;>
        simp [reproject_list, hw, ih v h1 hnone]

theorem extract_list_none :
    ∀ (l : List PyVal) (v : PyVal), v ∈ l → extract_coords v = none →
      extract_list l = none := by
  intro l
  induction l with
  | nil => intro v hv; simp at hv
  | cons w ws ih =>
    intro v hv hnone
    rcases List.mem_cons.mp hv with h1 | h1
    · subst h1; simp [extract_list, hnone]
    · cases hw : extract_coords w <;>
        simp [extract_list, hw, ih v h1 hnone]

theorem reachesEmpty_none :
    ∀ v : PyVal, reachesEmpty v = true →
      (∀ tf : List ℚ → List ℚ, reproject_coords tf v = none) ∧
      extract_coords v = none := by
  intro v
  induction v using PyVal.ind_mem with
  | hnum x => intro h; simp [reachesEmpty] at h
  | harr l ih =>
    intro h
    cases l with
    | nil => exact ⟨fun tf => rfl, rfl⟩
    | cons c cs =>
      cases c with
      | num x => simp [reachesEmpty] at h
      | arr a =>
        rw [reachesEmpty] at h
        obtain ⟨w, hw, hrw⟩ := reachesEmptyList_exists _ h
        obtain ⟨hwrep, hwext⟩ := ih w hw hrw
        constructor
        · intro tf
          simp [reproject_coords, reproject_list_none (.arr a :: cs) w hw (hwrep tf)]
        · simp [extract_coords, extract_list_none (.arr a :: cs) w hw hwext]

theorem foldl_min_le (l : List ℚ) (a : ℚ) :
    l.foldl min a ≤ a ∧ ∀ x ∈ l, l.foldl min a ≤ x := by
  induction l generalizing a with
  | nil => simp
  | cons b bs ih =>
    obtain ⟨h1, h2⟩ := ih (min a b)
    rw [List.foldl_cons]
    refine ⟨le_trans h1 (min_le_left a b), ?_⟩
    intro x hx
    rcases List.mem_cons.mp hx with h3 | h3
    · subst h3; exact le_trans h1 (min_le_right a x)
    · exact h2 x h3

theorem foldl_min_mem (l : List ℚ) (a : ℚ) : l.foldl min a ∈ a :: l := by
  induction l generalizing a with
  | nil => simp
  | cons b bs ih =>
    rw [List.foldl_cons]
    have h := ih (min a b)
    rcases List.mem_cons.mp h with h2 | h2
    · rw [h2]
      rcases min_choice a b with h1 | h1 <;> rw [h1] <;> simp
    · simp [h2]

theorem foldl_max_le (l : List ℚ) (a : ℚ) :
    a ≤ l.foldl max a ∧ ∀ x ∈ l, x ≤ l.foldl max a := by
  induction l generalizing a with
  | nil => simp
  | cons b bs ih =>
    obtain ⟨h1, h2⟩ := ih (max a b)
    rw [List.foldl_cons]
    refine ⟨le_trans (le_max_left a b) h1, ?_⟩
    intro x hx
    rcases List.mem_cons.mp hx with h3 | h3
    · subst h3; exact le_trans (le_max_right a x) h1
    · exact h2 x h3

theorem foldl_max_mem (l : List ℚ) (a : ℚ) : l.foldl max a ∈ a :: l := by
  induction l generalizing a with
  | nil => simp
  | cons b bs ih =>
    rw [List.foldl_cons]
    have h := ih (max a b)
    rcases List.mem_cons.mp h with h2 | h2
    · rw [h2]
      rcases max_choice a b with h1 | h1 <;> rw [h1] <;> simp
    · simp [h2]

/-! ### The claims -/

/-- Claim C1: on a non-empty nested coordinate structure, `reproject_coords` returns
the transform of the whole structure treated as one pair when its first
element is a number, and otherwise a structure of the same shape with
`reproject_coords` applied to each element — the transform is applied exactly
once per leaf coordinate pair, uniformly at every nesting depth (in
particular depths 1 through 4); `Reproj` is the contract stated by the specification
relating input and output. -/
theorem C1_reproject_contract (tf : List ℚ → List ℚ) :
    (∀ x y : ℚ, reproject_coords tf (.arr [.num x, .num y]) =
      some (.arr ((tf [x, y]).map PyVal.num))) ∧
    ∀ (d : Nat) (v : PyVal), WF d v →
      ∃ v', reproject_coords tf v = some v' ∧ Reproj tf v v' := by
  refine ⟨?_, ?_⟩
  · intro x y
    simp [reproject_coords, allNums, asNum]
  · intro d v h
    exact reproject_wf h

/-- Witness for C1 at a depth-2 structure and a concrete transform. -/
theorem C1_reproject_contract_witness :
    reproject_coords tfShift (.arr [.arr [.num 1, .num 2]]) =
      some (.arr [.arr [.num 2, .num 3]]) ∧
    Reproj tfShift (.arr [.arr [.num 1, .num 2]]) (.arr [.arr [.num 2, .num 3]]) := by
  have heval : reproject_coords tfShift (.arr [.arr [.num 1, .num 2]]) =
      some (.arr [.arr [.num 2, .num 3]]) := by
    simp [reproject_coords, reproject_list, allNums, asNum, tfShift]
    norm_num
  have hwf : WF 2 (PyVal.arr [.arr [.num 1, .num 2]]) := by
    refine WF.node (by simp) ?_
    intro v hv
    simp only [List.mem_singleton] at hv
    subst hv
    exact WF.pair 1 2
  obtain ⟨v', hv, hr⟩ := (C1_reproject_contract tfShift).2 2 _ hwf
  rw [heval] at hv
  have h := Option.some.inj hv
  subst h
  exact ⟨heval, hr⟩

/-- Claim C2: for every valid GeoJSON geometry (one of the six recognized types,
`coordinates` well-formed at the nesting depth of the type, no empty arrays, as
captured by `WF`), reprojecting and then extracting the leaf coordinate pairs
yields exactly as many pairs as extracting the leaves of the original: no
leaf is dropped or duplicated.  The transform is assumed to return a
non-empty tuple on a pair, as the real transformer does. -/
theorem C2_leaf_count_preserved (tf : List ℚ → List ℚ)
    (htf : ∀ x y : ℚ, tf [x, y] ≠ []) (t : String) (ht : t ∈ GEOJSON_TYPES)
    (v : PyVal) (h : WF (geojson_depth t) v) :
    ∃ v' L L', reproject_coords tf v = some v' ∧ extract_coords v = some L ∧
      extract_coords v' = some L' ∧ L'.length = L.length := by
  obtain ⟨v', L, L', hv, _, hL, hL', hlen⟩ := reproject_count htf h
  exact ⟨v', L, L', hv, hL, hL', hlen⟩

/-- Witness for C2 at a concrete Point geometry and transform. -/
theorem C2_leaf_count_preserved_witness :
    ∃ v' L L', reproject_coords tfShift (.arr [.num 3, .num 4]) = some v' ∧
      extract_coords (.arr [.num 3, .num 4]) = some L ∧
      extract_coords v' = some L' ∧ L'.length = L.length := by
  refine C2_leaf_count_preserved tfShift ?_ "Point" (by simp [GEOJSON_TYPES]) _ ?_
  · intro x y
    simp [tfShift]
  · rw [show geojson_depth "Point" = 1 from rfl]
    exact WF.pair 3 4

/-- Claim C3: for a non-empty list of leaf coordinate pairs, the box handed to
`fit_bounds` (corners in the (lat, lon) order folium expects, i.e. south-west corner
`(min lat, min lon)`, north-east corner `(max lat, max lon)` where leaves are
`(lon, lat)` pairs) has its minimum corner equal to the component-wise
minimum and its maximum corner equal to the component-wise maximum over all
leaves (each corner component is a lower/upper bound and is attained); for a
single point the box is degenerate and equal to that point. -/
theorem C3_bounds_minmax :
    (∀ x y : ℚ, fit_bounds_box [(x, y)] = some ((y, x), (y, x))) ∧
    ∀ (p : ℚ × ℚ) (ps : List (ℚ × ℚ)),
      ∃ b, fit_bounds_box (p :: ps) = some b ∧
        (∀ q ∈ p :: ps, b.1.1 ≤ q.2 ∧ b.1.2 ≤ q.1 ∧ q.2 ≤ b.2.1 ∧ q.1 ≤ b.2.2) ∧
        b.1.1 ∈ (p :: ps).map Prod.snd ∧ b.1.2 ∈ (p :: ps).map Prod.fst ∧
        b.2.1 ∈ (p :: ps).map Prod.snd ∧ b.2.2 ∈ (p :: ps).map Prod.fst := by
  constructor
  · intro x y
    simp [fit_bounds_box]
  · intro p ps
    refine ⟨(((ps.map Prod.snd).foldl min p.2, (ps.map Prod.fst).foldl min p.1),
      ((ps.map Prod.snd).foldl max p.2, (ps.map Prod.fst).foldl max p.1)),
      by simp [fit_bounds_box], ?_, ?_, ?_, ?_, ?_⟩
    · intro q hq
      obtain ⟨hmin2a, hmin2b⟩ := foldl_min_le (ps.map Prod.snd) p.2
      obtain ⟨hmin1a, hmin1b⟩ := foldl_min_le (ps.map Prod.fst) p.1
      obtain ⟨hmax2a, hmax2b⟩ := foldl_max_le (ps.map Prod.snd) p.2
      obtain ⟨hmax1a, hmax1b⟩ := foldl_max_le (ps.map Prod.fst) p.1
      rcases List.mem_cons.mp hq with h1 | h1
      · subst h1
        exact ⟨hmin2a, hmin1a, hmax2a, hmax1a⟩
      · exact ⟨hmin2b q.2 (List.mem_map_of_mem Prod.snd h1),
          hmin1b q.1 (List.mem_map_of_mem Prod.fst h1),
          hmax2b q.2 (List.mem_map_of_mem Prod.snd h1),
          hmax1b q.1 (List.mem_map_of_mem Prod.fst h1)⟩
    · simpa using foldl_min_mem (ps.map Prod.snd) p.2
    · simpa using foldl_min_mem (ps.map Prod.fst) p.1
    · simpa using foldl_max_mem (ps.map Prod.snd) p.2
    · simpa using foldl_max_mem (ps.map Prod.fst) p.1

/-- Witness for C3 at a concrete two-point list. -/
theorem C3_bounds_minmax_witness :
    ∃ b, fit_bounds_box [(1, 2), (3, 0)] = some b ∧ b.1.1 ≤ 0 ∧ b.1.2 ≤ 1 := by
  obtain ⟨b, hb, hle, _⟩ := C3_bounds_minmax.2 (1, 2) [(3, 0)]
  have h1 := hle (3, 0) (by simp)
  have h2 := hle (1, 2) (by simp)
  exact ⟨b, hb, h1.1, h2.2.1⟩

/-- Claim C4: bounds extraction over an empty feature collection returns the empty
coordinate list (no error, no degenerate zero box), and on an empty
coordinate list the `fit_bounds` call is not made, leaving the viewport
unchanged. -/
theorem C4_empty_features_no_bounds :
    get_all_coords [] = some [] ∧ fit_bounds_box [] = none :=
  ⟨rfl, rfl⟩

/-- Claim C5 counterexample: at the empty structure `[]` itself — explicitly
included in the claim — both recursive walkers raise (IndexError on
`coords[0]`, modelled as `none`) instead of handling it without an indexing
error and silently dropping it. -/
theorem C5_empty_array_raises_cex :
    reproject_coords tfShift (.arr []) = none ∧ extract_coords (.arr []) = none := by
  constructor
  · simp [reproject_coords]
  · simp [extract_coords]

/-- Claim C5 amended: both walkers access the first element unconditionally, so an
empty coordinate array is never silently dropped: whenever the recursion
reaches an empty array (the empty structure itself, or an empty array in a
position where a sub-structure is expected), `reproject_coords` and the
extraction walker raise an indexing error rather than returning a result. -/
theorem C5_amended_empty_array_raises (tf : List ℚ → List ℚ) (v : PyVal)
    (h : reachesEmpty v = true) :
    reproject_coords tf v = none ∧ extract_coords v = none :=
  ⟨(reachesEmpty_none v h).1 tf, (reachesEmpty_none v h).2⟩

/-- Witness for the amended C5 at a nested empty array. -/
theorem C5_amended_empty_array_raises_witness :
    reproject_coords tfShift (.arr [.arr []]) = none ∧
      extract_coords (.arr [.arr []]) = none :=
  C5_amended_empty_array_raises tfShift _
    (by simp [reachesEmpty, reachesEmptyList])

/-- Claim C6: a feature whose geometry has a recognized type but is malformed —
the `coordinates` key missing (KeyError on `geom["coordinates"]`), or an
empty array where the walker expects a coordinate structure (IndexError on
`coords[0]`) — makes `reproject_feature` raise rather than return a
result. -/
theorem C6_malformed_raises (tf : List ℚ → List ℚ) (f : Feature) (g : Geometry)
    (t : String) (hg : f.geometry = some g) (ht : g.type = some t)
    (htypes : t ∈ GEOJSON_TYPES)
    (hmal : g.coordinates = none ∨
      ∃ c, g.coordinates = some c ∧ reachesEmpty c = true) :
    reproject_feature tf f = none := by
  unfold reproject_feature
  rw [hg]
  simp only [Option.getD_some, ht, if_pos htypes]
  rcases hmal with h | ⟨c, hc, hre⟩
  · rw [h]
  · rw [hc]
    simp [(reachesEmpty_none c hre).1 tf]

/-- Witness for C6: a Point feature with no `coordinates` key. -/
theorem C6_malformed_raises_witness :
    reproject_feature tfShift fPointNoCoords = none :=
  C6_malformed_raises tfShift fPointNoCoords
    { type := some "Point", coordinates := none, gother := [] } "Point"
    rfl rfl (by simp [GEOJSON_TYPES]) (Or.inl rfl)

/-- Claim C7 counterexample: a 302 response (non-2xx) with a JSON body is not an
error for `raise_for_status`, so `fetch_features` returns the `data` field of the body
instead of propagating an error — refuting "fail hard on every non-2xx
response". -/
theorem C7_non2xx_cex :
    fetch_features resp302 "p1" "key" = some ["f1"] ∧
      ¬ (200 ≤ resp302.status ∧ resp302.status < 300) := by
  constructor
  · rfl
  · decide

/-- Claim C7 amended: both API operations propagate the HTTP error (returning no
data) exactly on 4xx/5xx responses — the statuses `raise_for_status` treats
as errors; on any other status, including every 2xx, they return the `data`
field of the JSON body, defaulting to the empty list when the key is absent,
and propagate a decode error when the body is not JSON. -/
theorem C7_amended_http_errors (α : Type) (resp : HttpResponse α)
    (project_id api_key template_type : String) (published_only : Bool) :
    (raises_for_status resp.status →
      fetch_projects resp api_key template_type published_only = none ∧
      fetch_features resp project_id api_key = none) ∧
    (¬ raises_for_status resp.status →
      (resp.body = none →
        fetch_projects resp api_key template_type published_only = none ∧
        fetch_features resp project_id api_key = none) ∧
      ∀ j, resp.body = some j →
        fetch_projects resp api_key template_type published_only =
          some (j.data.getD [], projects_url api_key template_type published_only) ∧
        fetch_features resp project_id api_key = some (j.data.getD [])) := by
  unfold fetch_projects fetch_features
  constructor
  · intro h
    rw [if_pos h, if_pos h]
    exact ⟨rfl, rfl⟩
  · intro h
    constructor
    · intro hb
      rw [if_neg h, if_neg h, hb]
      exact ⟨rfl, rfl⟩
    · intro j hb
      rw [if_neg h, if_neg h, hb]
      exact ⟨rfl, rfl⟩

/-- Witness for the amended C7: a 200 response whose body lacks `data`
yields the empty-list default from both operations. -/
theorem C7_amended_http_errors_witness :
    fetch_projects resp200 "k" "BPS" false = some ([], projects_url "k" "BPS" false) ∧
    fetch_features resp200 "p" "k" = some [] := by
  obtain ⟨-, h2⟩ :=
    (C7_amended_http_errors String resp200 "p" "k" "BPS" false).2 (by decide)
  exact h2 ⟨none⟩ rfl

/-- Claim C9: the function `reproject_feature` modifies only the `coordinates` field inside the
geometry of the feature: the `properties` mapping, every other feature field, the
geometry `type`, and every other geometry field are unchanged whenever the
call returns. -/
theorem C9_frame_only_coordinates (tf : List ℚ → List ℚ) (f f' : Feature)
    (h : reproject_feature tf f = some f') :
    f'.properties = f.properties ∧ f'.fother = f.fother ∧
    ∃ g', f'.geometry = some g' ∧
      g'.type = (f.geometry.getD emptyGeom).type ∧
      g'.gother = (f.geometry.getD emptyGeom).gother := by
  unfold reproject_feature at h
  split at h
  · split at h
    · split at h
      · exact absurd h (by simp)
      · split at h
        · exact absurd h (by simp)
        · have h' := Option.some.inj h
          subst h'
          exact ⟨rfl, rfl, _, rfl, rfl, rfl⟩
    · have h' := Option.some.inj h
      subst h'
      exact ⟨rfl, rfl, _, rfl, rfl, rfl⟩
  · have h' := Option.some.inj h
    subst h'
    exact ⟨rfl, rfl, _, rfl, rfl, rfl⟩

/-- Witness for C9 at a concrete Point feature. -/
theorem C9_frame_only_coordinates_witness :
    reproject_feature tfShift fPointFeature = some fPointFeatureR ∧
    fPointFeatureR.properties = fPointFeature.properties ∧
    fPointFeatureR.fother = fPointFeature.fother := by
  have heval : reproject_feature tfShift fPointFeature = some fPointFeatureR := by
    simp [reproject_feature, fPointFeature, fPointFeatureR, emptyGeom, GEOJSON_TYPES,
      reproject_coords, allNums, asNum, tfShift]
    norm_num
  have h := C9_frame_only_coordinates tfShift fPointFeature fPointFeatureR heval
  exact ⟨heval, h.1, h.2.1⟩

/-- Claim C10: a feature whose geometry `type` is absent or not one of the six
recognized GeoJSON types is returned without error and with its coordinates
untouched, and the returned feature always has a `geometry` key — the empty
mapping when the feature had none. -/
theorem C10_unrecognized_type_unchanged (tf : List ℚ → List ℚ) (f : Feature)
    (h : (f.geometry.getD emptyGeom).type = none ∨
      ∀ t, (f.geometry.getD emptyGeom).type = some t → t ∉ GEOJSON_TYPES) :
    reproject_feature tf f =
      some { f with geometry := some (f.geometry.getD emptyGeom) } := by
  unfold reproject_feature
  rcases h with h | h
  · rw [h]
  · cases hg : (f.geometry.getD emptyGeom).type with
    | none => rfl
    | some t => simp [h t hg]

/-- Witness for C10: a feature without a `geometry` key comes back intact
with an empty geometry mapping installed. -/
theorem C10_unrecognized_type_unchanged_witness :
    reproject_feature tfShift fNoGeom = some { fNoGeom with geometry := some emptyGeom } :=
  C10_unrecognized_type_unchanged tfShift fNoGeom (Or.inl rfl)

end LandApp
